import Mathlib

/-!
Verification development for the automation-orchestrator repository.

Python strings are embedded as lists of characters (`Str`), and the string
primitives used by the source (`strip`, `lower`, `split`, `isdigit`,
`int`, substring containment) are given executable models.  The scheduling
predicate (`util.py`), the duplicate guard, queue and scheduler tick
(`orchestrator.py`), the command builder (`executor.py`) and the GUI tick
gate (`gui_controller.py`) are translated faithfully from the source,
with the filesystem (`os.path.exists` / `os.path.isfile`) and
`sys.executable` passed explicitly as an environment record.
-/

deriving instance DecidableEq for Except

/-- A Python string, embedded as a list of characters. -/
abbrev Str := List Char

/-- Literal conversion from a Lean string literal. -/
def strOf (s : String) : Str := s.data

/-- Model of Python `str.lstrip()` (left whitespace strip). -/
def lstripS (s : Str) : Str := s.dropWhile Char.isWhitespace

/-- Model of Python `str.rstrip()` (right whitespace strip). -/
def rstripS (s : Str) : Str := (s.reverse.dropWhile Char.isWhitespace).reverse

/-- Model of Python `str.strip()`. -/
def pyStrip (s : Str) : Str := rstripS (lstripS s)

/-- Model of Python `str.lower()` (ASCII case folding, sufficient for the
tokens `"Todos"` / `"UiPath"` used by the source). -/
def pyLower (s : Str) : Str := s.map Char.toLower

/-- Model of Python `str.isdigit()` on ASCII data: nonempty and all digits. -/
def pyIsDigit (s : Str) : Bool := !s.isEmpty && s.all Char.isDigit

/-- Model of Python `int(s)` on a string of decimal digits. -/
def pyInt (s : Str) : Nat := s.foldl (fun a c => 10 * a + (c.toNat - 48)) 0

/-- Model of Python `s.split(sep)` for a one-character separator: splits at
every occurrence and keeps empty pieces. -/
def pySplitOn (sep : Char) : Str → List Str
  | [] => [[]]
  | c :: rest =>
    match pySplitOn sep rest with
    | [] => if c = sep then [[], []] else [[c]]
    | t :: ts => if c = sep then [] :: t :: ts else (c :: t) :: ts

/-- `needle` begins `hay` (helper for substring containment). -/
def strBegins : Str → Str → Bool
  | [], _ => true
  | _ :: _, [] => false
  | a :: as, b :: bs => a = b && strBegins as bs

/-- Model of Python `needle in hay` for strings: contiguous substring. -/
def strContainsSub (needle : Str) : Str → Bool
  | [] => needle.isEmpty
  | c :: rest => strBegins needle (c :: rest) || strContainsSub needle rest

/-- Decimal rendering of a natural number (model of Python `str(n)`). -/
def natToStr (n : Nat) : Str := Nat.toDigits 10 n

/-- Decimal rendering of an integer (model of Python `str(int(v))`). -/
def intToStr : Int → Str
  | Int.ofNat n => natToStr n
  | Int.negSucc n => '-' :: natToStr (n + 1)

/-- A spreadsheet / DB cell value as handled by `util._normalize_cell`:
`None`, float `NaN`, a float with integral value (Excel numerics), or a
string.  Non-integral floats, which the source renders via `str(value)`,
are representable as `cstr` of that rendering. -/
inductive Cell where
  | cnone : Cell
  | cnan : Cell
  | cfloatInt : Int → Cell
  | cstr : Str → Cell
deriving DecidableEq

/-- `util._normalize_cell`: None/NaN → empty, integral float → decimal
string, otherwise the stripped string. -/
def normalize_cell : Cell → Str
  | Cell.cnone => []
  | Cell.cnan => []
  | Cell.cfloatInt n => intToStr n
  | Cell.cstr s => pyStrip s

/-- `util._split_values`: split on `;`, then `|`, then `,`; strip each
piece and drop the empty ones. -/
def split_values (raw : Str) : List Str :=
  if raw.isEmpty then []
  else
    let t1 := pySplitOn ';' raw
    let t2 := t1.foldr (fun t acc => pySplitOn '|' t ++ acc) []
    let t3 := t2.foldr (fun t acc => pySplitOn ',' t ++ acc) []
    (t3.map pyStrip).filter (fun t => !t.isEmpty)

/-- `util._matches.token_matches`: strip both sides; empty never matches;
two digit strings compare by integer value; otherwise the current value
must be a substring of the token. -/
def token_matches (token current : Str) : Bool :=
  if (pyStrip token).isEmpty || (pyStrip current).isEmpty then false
  else if pyIsDigit (pyStrip token) && pyIsDigit (pyStrip current) then
    pyInt (pyStrip token) == pyInt (pyStrip current)
  else strContainsSub (pyStrip current) (pyStrip token)

/-- `util._matches`: empty field never matches; the whole normalized value
equal (case-insensitively) to `"todos"` always matches; otherwise any
split candidate must match, falling back to the whole value when the
split yields no candidates. -/
def cell_matches (field_value : Cell) (now_value : Str) : Bool :=
  if (normalize_cell field_value).isEmpty then false
  else if pyLower (normalize_cell field_value) = strOf "todos" then true
  else if (split_values (normalize_cell field_value)).isEmpty then
    token_matches (normalize_cell field_value) now_value
  else
    (split_values (normalize_cell field_value)).any
      (fun t => token_matches t now_value)

/-- `util.NowParts`: the seven comparison dimensions of "now". -/
structure NowParts where
  year : Str
  month_name : Str
  week_of_month : Str
  weekday_name : Str
  day : Str
  hour : Str
  minute : Str
deriving DecidableEq

/-- A schedule row as consumed by `util.should_enqueue` (`row.get(...)`
on the seven schedule columns; a missing column is `Cell.cnone`). -/
structure ScheduleRow where
  ano : Cell
  meses_do_ano : Cell
  semanas_do_mes : Cell
  dias_da_semana : Cell
  dia : Cell
  hora : Cell
  minuto : Cell
deriving DecidableEq

/-- `util.should_enqueue`: all seven schedule dimensions must match. -/
def should_enqueue (row : ScheduleRow) (now : NowParts) : Bool :=
  cell_matches row.ano now.year
    && cell_matches row.meses_do_ano now.month_name
    && cell_matches row.semanas_do_mes now.week_of_month
    && cell_matches row.dias_da_semana now.weekday_name
    && cell_matches row.dia now.day
    && cell_matches row.hora now.hour
    && cell_matches row.minuto now.minute

/-- A queue/process item as produced by `util.to_process_item`:
display name, tool, path (all strings). -/
structure Item where
  processo : Str
  ferramenta : Str
  caminho : Str
deriving DecidableEq

/-- `orchestrator.InMemoryQueue._dq`: the deque contents, front first. -/
abbrev QueueState := List Item

/-- `InMemoryQueue.put`: append at the back. -/
def queuePut (q : QueueState) (item : Item) : QueueState := q ++ [item]

/-- `InMemoryQueue.get`: pop the front, raising `queue.Empty` (modelled as
`Except.error ()`) on an empty queue. -/
def queueGet (q : QueueState) : Except Unit (Item × QueueState) :=
  match q with
  | [] => Except.error ()
  | x :: xs => Except.ok (x, xs)

/-- `InMemoryQueue.empty`. -/
def queueEmpty (q : QueueState) : Bool := q.isEmpty

/-- `InMemoryQueue.snapshot`: an ordered copy of the contents. -/
def queueSnapshot (q : QueueState) : List Item := q

/-- `orchestrator.DuplicateGuard` state: last minute key and the set of
job keys seen in that minute (membership-only, held as a list). -/
structure GuardState where
  lastMinuteKey : Option Str
  seen : List Str
deriving DecidableEq

/-- Fresh guard (`DuplicateGuard.__init__`). -/
def guardInit : GuardState := ⟨none, []⟩

/-- The minute key: year ++ month name ++ day ++ hour ++ minute. -/
def minuteKey (now : NowParts) : Str :=
  now.year ++ now.month_name ++ now.day ++ now.hour ++ now.minute

/-- The job identity key: `processo|ferramenta|caminho`. -/
def jobKey (item : Item) : Str :=
  item.processo ++ strOf "|" ++ item.ferramenta ++ strOf "|" ++ item.caminho

/-- `DuplicateGuard.reset_if_new_minute`: a new minute key replaces the
stored one and clears the seen set. -/
def reset_if_new_minute (now : NowParts) (g : GuardState) : GuardState :=
  if g.lastMinuteKey = some (minuteKey now) then g
  else ⟨some (minuteKey now), []⟩

/-- `DuplicateGuard.allow`: first reset on a new minute, then reject a
seen job key, else record it and accept; returns the decision and the
updated state. -/
def guardAllow (item : Item) (now : NowParts) (g : GuardState) :
    Bool × GuardState :=
  if jobKey item ∈ (reset_if_new_minute now g).seen then
    (false, reset_if_new_minute now g)
  else
    (true, ⟨(reset_if_new_minute now g).lastMinuteKey,
            jobKey item :: (reset_if_new_minute now g).seen⟩)

/-- Result of one scheduler tick: the queue contents, the guard state, and
whether the tick was aborted by an exception from the log sink. -/
structure TickResult where
  queue : QueueState
  guard : GuardState
  aborted : Bool
deriving DecidableEq

/-- The loop body of `DBBackedScheduler.tick_once` over the due items:
each due item passes the duplicate guard; when `log_to_db` is set the log
append may raise (`fails item = true`), which propagates and aborts the
rest of the loop — mutations made so far (guard marks, queued items)
persist.  An accepted item whose append succeeds is put on the queue. -/
def tick_once_go (now : NowParts) (fails : Item → Bool) (logToDb : Bool) :
    List Item → GuardState → QueueState → TickResult
  | [], g, q => ⟨q, g, false⟩
  | item :: rest, g, q =>
    if (guardAllow item now g).1 = false then
      tick_once_go now fails logToDb rest (guardAllow item now g).2 q
    else if logToDb && fails item then ⟨q, (guardAllow item now g).2, true⟩
    else
      tick_once_go now fails logToDb rest (guardAllow item now g).2
        (queuePut q item)

/-- `DBBackedScheduler.tick_once`, abstracted over the due list produced by
`poll_due_processes` and over which items' log append raises. -/
def tick_once (now : NowParts) (fails : Item → Bool) (logToDb : Bool)
    (due : List Item) (g : GuardState) (q : QueueState) : TickResult :=
  tick_once_go now fails logToDb due g q

/-- Controller-side state touched by `OrchestratorController._on_scheduler_tick`:
the dispatch queue, the scheduler's guard, and the running item. -/
structure CtrlState where
  queue : QueueState
  guard : GuardState
  runningItem : Option Item
deriving DecidableEq

/-- `OrchestratorController._drain_queue_if_idle`: when no process is
running and the queue is nonempty, pop the front item and start it. -/
def drain_queue_if_idle (processRunning : Bool) (s : CtrlState) : CtrlState :=
  if processRunning then s
  else
    match queueGet s.queue with
    | Except.error _ => s
    | Except.ok (item, rest) => ⟨rest, s.guard, some item⟩

/-- `OrchestratorController._on_scheduler_tick`: outside the 07–18 window
only a status message is emitted and the state is untouched; inside it,
`tick_once` runs (its exceptions caught at tick level) and then the queue
is drained if idle. -/
def on_scheduler_tick (hour : Nat) (now : NowParts) (due : List Item)
    (fails : Item → Bool) (logToDb : Bool) (processRunning : Bool)
    (s : CtrlState) : CtrlState :=
  if ¬ (7 ≤ hour ∧ hour < 18) then s
  else
    let r := tick_once now fails logToDb due s.guard s.queue
    drain_queue_if_idle processRunning ⟨r.queue, r.guard, s.runningItem⟩

/-- The host environment seen by `executor.py`: `os.path.exists`,
`os.path.isfile` and `sys.executable`, passed explicitly. -/
structure Env where
  pathExists : Str → Bool
  isFile : Str → Bool
  sysExecutable : Str

/-- An environment in which no path exists (used for concrete runs). -/
def envEmpty : Env := ⟨fun _ => false, fun _ => false, strOf "python.exe"⟩

/-- `executor.build_uipath_command`. -/
def build_uipath_command (robot_path process_name : Str) : List Str :=
  [robot_path, strOf "execute", strOf "--process-name", process_name]

/-- Tokenizer state for the model of `shlex.split(raw, posix=False)`:
remaining input, open quote character (if inside a quoted span), token
under construction, finished tokens.  `none` models the `ValueError`
raised on an unbalanced quote. -/
def shlexGo : List Char → Option Char → List Char → List Str →
    Option (List Str)
  | [], some _, _, _ => none
  | [], none, cur, acc => some (if cur.isEmpty then acc else acc ++ [cur])
  | c :: rest, some qc, cur, acc =>
    if c = qc then shlexGo rest none (cur ++ [c]) acc
    else shlexGo rest (some qc) (cur ++ [c]) acc
  | c :: rest, none, cur, acc =>
    if c = '"' ∨ c = '\'' then shlexGo rest (some c) (cur ++ [c]) acc
    else if c.isWhitespace then
      if cur.isEmpty then shlexGo rest none [] acc
      else shlexGo rest none [] (acc ++ [cur])
    else shlexGo rest none (cur ++ [c]) acc

/-- Model of the `shlex.split(raw, posix=False)` call wrapped in
`try/except ValueError` in `_split_command_windows`: whitespace-separated
tokens with quoted spans kept verbatim; an unbalanced quote falls back to
`[raw]`. -/
def pyShlex (raw : Str) : List Str :=
  match shlexGo raw none [] [] with
  | some tokens => tokens
  | none => [raw]

/-- `" ".join(tokens)`. -/
def joinSpace (tokens : List Str) : Str := List.intercalate (strOf " ") tokens

/-- The prefix-reconstruction loop of `_split_command_windows`: for `i`
from `tokens.length` down to 1, the first space-joined prefix satisfying
the predicate becomes the executable, the rest the arguments. -/
def reconScan (pred : Str → Bool) (tokens : List Str) : Option (List Str) :=
  ((List.range tokens.length).reverse.map (· + 1)).findSome? fun i =>
    if pred (joinSpace (tokens.take i)) then
      some (joinSpace (tokens.take i) :: tokens.drop i)
    else none

/-- Does `raw.lstrip()` start with a double or single quote? -/
def startsWithQuote (raw : Str) : Bool :=
  match lstripS raw with
  | [] => false
  | c :: _ => c = '"' ∨ c = '\''

/-- `executor._split_command_windows`: an existing path is the sole token;
otherwise shlex-style tokens, with the space-containing unquoted path
recovered by prefix reconstruction (first by `isfile`, then by `exists`). -/
def split_command_windows (env : Env) (raw0 : Str) : List Str :=
  let raw := pyStrip raw0
  if raw.isEmpty then []
  else if env.pathExists raw then [raw]
  else
    let tokens := pyShlex raw
    if 1 < tokens.length ∧ ¬ startsWithQuote raw then
      match reconScan env.isFile tokens with
      | some r => r
      | none =>
        match reconScan env.pathExists tokens with
        | some r => r
        | none => tokens
    else tokens

/-- Extension part of `os.path.splitext(entry)[1]`: the suffix of the
basename from its last dot, provided some non-dot character precedes that
dot within the basename. -/
def pyExt (s : Str) : Str :=
  let base := (s.reverse.takeWhile (fun c => c ≠ '/' ∧ c ≠ '\\')).reverse
  let revAfter := base.reverse.takeWhile (fun c => c ≠ '.')
  if revAfter.length = base.length then []
  else
    let before := base.take (base.length - revAfter.length - 1)
    if before.any (fun c => c ≠ '.') then '.' :: revAfter.reverse
    else []

/-- PowerShell single-quote escaping (`_ps_quote` in the `.lnk` branch). -/
def psQuote (v : Str) : Str :=
  '\'' :: (v.foldr (fun c acc => if c = '\'' then '\'' :: '\'' :: acc
                                 else c :: acc) []) ++ ['\'']

/-- The `-ArgumentList` literal of the `.lnk` branch. -/
def psArgList (args : List Str) : Str :=
  if args.isEmpty then strOf "@()"
  else strOf "@(" ++ List.intercalate (strOf ",") (args.map psQuote)
       ++ strOf ")"

/-- Failures of `executor.build_subprocess_command` (the `ValueError`s it
raises); `unexecutable` carries the offending path and extension. -/
inductive BuildErr where
  | invalidItem : BuildErr
  | emptyCommand : BuildErr
  | unexecutable : Str → Str → BuildErr
deriving DecidableEq

/-- `executor.build_subprocess_command`, translated rule for rule:
missing tool/path is invalid; tool `uipath` (case-insensitive) yields the
four-token UiPath argv with no tokenization; otherwise the path is
tokenized and dispatched on the executable's extension; an existing
regular file with a non-executable extension is rejected naming the path
and extension; anything else is returned as-is. -/
def build_subprocess_command (env : Env) (item : Item) :
    Except BuildErr (List Str) :=
  let tool := pyStrip item.ferramenta
  let path := pyStrip item.caminho
  let process_name := pyStrip item.processo
  if tool.isEmpty || path.isEmpty then Except.error BuildErr.invalidItem
  else if pyLower tool = strOf "uipath" then
    Except.ok (build_uipath_command path process_name)
  else
    match split_command_windows env path with
    | [] => Except.error BuildErr.emptyCommand
    | entry :: args =>
      let ext := pyLower (pyExt entry)
      if ext = strOf ".py" ∨ ext = strOf ".pyw" then
        Except.ok (env.sysExecutable :: entry :: args)
      else if ext = strOf ".bat" ∨ ext = strOf ".cmd" then
        Except.ok (strOf "cmd.exe" :: strOf "/c" :: entry :: args)
      else if ext = strOf ".ps1" then
        Except.ok ([strOf "powershell", strOf "-NoProfile",
          strOf "-ExecutionPolicy", strOf "Bypass", strOf "-File", entry]
          ++ args)
      else if ext = strOf ".lnk" then
        Except.ok [strOf "powershell", strOf "-NoProfile",
          strOf "-ExecutionPolicy", strOf "Bypass", strOf "-Command",
          strOf "Start-Process -FilePath " ++ psQuote entry
            ++ strOf " -ArgumentList " ++ psArgList args ++ strOf " -Wait"]
      else if env.pathExists entry && env.isFile entry
          && !(ext = strOf ".exe" ∨ ext = strOf ".com") then
        Except.error (BuildErr.unexecutable entry ext)
      else Except.ok (entry :: args)

/-- The `push`/`pop` operations of the dispatch-queue contract. -/
inductive QOp where
  | push : Item → QOp
  | pop : QOp
deriving DecidableEq

/-- One queue operation applied to (queue, items popped so far); a `pop`
on an empty queue signals `queue.Empty` to the caller and leaves the
queue untouched. -/
def applyQOp : QueueState × List Item → QOp → QueueState × List Item
  | (q, out), QOp.push i => (queuePut q i, out)
  | (q, out), QOp.pop =>
    match queueGet q with
    | Except.error _ => (q, out)
    | Except.ok (x, q') => (q', out ++ [x])

/-- Run an interleaved push/pop sequence from the empty queue. -/
def runQOps (ops : List QOp) : QueueState × List Item :=
  ops.foldl applyQOp ([], [])

/-- The items pushed by an operation sequence, in order. -/
def pushedOf (ops : List QOp) : List Item :=
  ops.filterMap (fun op => match op with
    | QOp.push i => some i
    | QOp.pop => none)

/-- Fold of `DuplicateGuard.allow` state updates over a call sequence. -/
def runGuard (g : GuardState) (calls : List (Item × NowParts)) : GuardState :=
  calls.foldl (fun s c => (guardAllow c.1 c.2 s).2) g

/-- A concrete time snapshot used by the concrete instantiations. -/
def now0 : NowParts :=
  ⟨strOf "2025", strOf "December", strOf "4", strOf "Friday",
   strOf "26", strOf "07", strOf "30"⟩

/-- `now0` one minute later (different minute key). -/
def now1 : NowParts :=
  ⟨strOf "2025", strOf "December", strOf "4", strOf "Friday",
   strOf "26", strOf "07", strOf "31"⟩

/-- Concrete items for the concrete instantiations. -/
def item0 : Item := ⟨strOf "P1", strOf "Uipath", strOf "C:\\r.exe"⟩

def itemA : Item := ⟨strOf "A", strOf "Python", strOf "a.py"⟩

def itemB : Item := ⟨strOf "B", strOf "Python", strOf "b.py"⟩

def itemC : Item := ⟨strOf "C", strOf "Python", strOf "c.py"⟩

/-- A log sink that raises exactly on `itemA`. -/
def failsOnA (i : Item) : Bool := decide (i = itemA)

/-- Guard state in which `item0` was already seen in `now0`'s minute. -/
def guardSeen0 : GuardState := (guardAllow item0 now0 guardInit).2

/-- A schedule row with every field set to the wildcard token. -/
def rowTodos : ScheduleRow :=
  ⟨Cell.cstr (strOf "Todos"), Cell.cstr (strOf "Todos"),
   Cell.cstr (strOf "Todos"), Cell.cstr (strOf "Todos"),
   Cell.cstr (strOf "Todos"), Cell.cstr (strOf "Todos"),
   Cell.cstr (strOf "Todos")⟩

/-- An environment in which exactly `C:\dir\readme.txt` exists and is a
regular file. -/
def envReadme : Env :=
  ⟨fun s => decide (s = strOf "C:\\dir\\readme.txt"),
   fun s => decide (s = strOf "C:\\dir\\readme.txt"),
   strOf "python.exe"⟩

/-- An initial controller state. -/
def ctrl0 : CtrlState := ⟨[], guardInit, none⟩

-- ---------------------------------------------------------------------
-- Theorems
-- ---------------------------------------------------------------------

/-- A normalized field whose lowering is the wildcard token matches every
snapshot value. -/
theorem matches_of_todos (f : Cell) (now : Str)
    (h : pyLower (normalize_cell f) = strOf "todos") :
    cell_matches f now = true := by
  have hne : (normalize_cell f).isEmpty = false := by
    cases hn : normalize_cell f with
    | nil => rw [hn] at h; exact absurd h (by decide)
    | cons a l => rfl
  simp [cell_matches, hne, h]

/-- C5: for every schedule row whose seven schedule fields all normalize,
case-insensitively, to the wildcard token `"Todos"`, `should_enqueue` is
true for every time snapshot whatsoever. -/
theorem all_wildcard_row_enqueues_always (row : ScheduleRow) (now : NowParts)
    (h1 : pyLower (normalize_cell row.ano) = strOf "todos")
    (h2 : pyLower (normalize_cell row.meses_do_ano) = strOf "todos")
    (h3 : pyLower (normalize_cell row.semanas_do_mes) = strOf "todos")
    (h4 : pyLower (normalize_cell row.dias_da_semana) = strOf "todos")
    (h5 : pyLower (normalize_cell row.dia) = strOf "todos")
    (h6 : pyLower (normalize_cell row.hora) = strOf "todos")
    (h7 : pyLower (normalize_cell row.minuto) = strOf "todos") :
    should_enqueue row now = true := by
  simp [should_enqueue, matches_of_todos _ _ h1, matches_of_todos _ _ h2,
    matches_of_todos _ _ h3, matches_of_todos _ _ h4,
    matches_of_todos _ _ h5, matches_of_todos _ _ h6,
    matches_of_todos _ _ h7]

/-- Witness for C5: the all-`"Todos"` row is enqueued at the concrete
snapshot `now0`. -/
theorem all_wildcard_row_enqueues_always_witness :
    pyLower (normalize_cell rowTodos.ano) = strOf "todos"
    ∧ should_enqueue rowTodos now0 = true :=
  ⟨by decide,
   all_wildcard_row_enqueues_always rowTodos now0 (by decide) (by decide)
     (by decide) (by decide) (by decide) (by decide) (by decide)⟩

/-- C6: for tokens and snapshot values that strip to purely-numeric
strings, a token matches exactly when the integer values are equal, so
leading zeros are irrelevant. -/
theorem numeric_token_matches_iff_int_eq (t c : Str)
    (ht : pyIsDigit (pyStrip t) = true)
    (hc : pyIsDigit (pyStrip c) = true) :
    (token_matches t c = true ↔ pyInt (pyStrip t) = pyInt (pyStrip c)) := by
  have hte : (pyStrip t).isEmpty = false := by
    cases h : pyStrip t with
    | nil => rw [h] at ht; exact absurd ht (by decide)
    | cons a l => rfl
  have hce : (pyStrip c).isEmpty = false := by
    cases h : pyStrip c with
    | nil => rw [h] at hc; exact absurd hc (by decide)
    | cons a l => rfl
  simp [token_matches, hte, hce, ht, hc]

/-- Witness for C6: `"7"` matches `"07"` and `"07"` matches `"07"`, with
the same (true) result. -/
theorem numeric_token_matches_iff_int_eq_witness :
    pyIsDigit (pyStrip (strOf "7")) = true
    ∧ pyIsDigit (pyStrip (strOf "07")) = true
    ∧ token_matches (strOf "7") (strOf "07") = true
    ∧ token_matches (strOf "07") (strOf "07") = true :=
  ⟨by decide, by decide,
   (numeric_token_matches_iff_int_eq (strOf "7") (strOf "07")
     (by decide) (by decide)).mpr (by decide),
   (numeric_token_matches_iff_int_eq (strOf "07") (strOf "07")
     (by decide) (by decide)).mpr (by decide)⟩

/-- Counterexample to C7 as stated: the field value `","` contains a comma
delimiter and is not the wildcard, yet splitting yields no candidate
token at all, and the field nevertheless matches the snapshot value `","`
(the whole value is compared directly when the split is empty). -/
theorem delimiter_only_field_matches_directly :
    (',' ∈ normalize_cell (Cell.cstr (strOf ",")))
    ∧ pyLower (normalize_cell (Cell.cstr (strOf ","))) ≠ strOf "todos"
    ∧ split_values (normalize_cell (Cell.cstr (strOf ","))) = []
    ∧ cell_matches (Cell.cstr (strOf ",")) (strOf ",") = true := by decide

/-- C7 (amended): for every non-wildcard field value for which delimiter
splitting yields at least one candidate token, the field matches a
snapshot value iff at least one token matches it. -/
theorem multi_value_field_matches_iff_some_token (v : Cell) (now : Str)
    (hsplit : split_values (normalize_cell v) ≠ [])
    (hw : pyLower (normalize_cell v) ≠ strOf "todos") :
    (cell_matches v now = true
      ↔ ∃ t ∈ split_values (normalize_cell v), token_matches t now = true) := by
  have hne : (normalize_cell v).isEmpty = false := by
    cases h : normalize_cell v with
    | nil => rw [h] at hsplit; exact absurd (by decide) hsplit
    | cons a l => rfl
  have hsE : (split_values (normalize_cell v)).isEmpty = false := by
    cases h : split_values (normalize_cell v) with
    | nil => exact absurd h hsplit
    | cons a l => rfl
  simp [cell_matches, hne, hw, hsE, List.any_eq_true]

/-- Witness for C7 (amended): `"07,08"` matches `"07"` and `"08"` and does
not match `"09"`. -/
theorem multi_value_field_matches_iff_some_token_witness :
    split_values (normalize_cell (Cell.cstr (strOf "07,08"))) ≠ []
    ∧ pyLower (normalize_cell (Cell.cstr (strOf "07,08"))) ≠ strOf "todos"
    ∧ cell_matches (Cell.cstr (strOf "07,08")) (strOf "07") = true
    ∧ cell_matches (Cell.cstr (strOf "07,08")) (strOf "08") = true
    ∧ cell_matches (Cell.cstr (strOf "07,08")) (strOf "09") = false :=
  ⟨by decide, by decide,
   (multi_value_field_matches_iff_some_token (Cell.cstr (strOf "07,08"))
     (strOf "07") (by decide) (by decide)).mpr (by decide),
   (multi_value_field_matches_iff_some_token (Cell.cstr (strOf "07,08"))
     (strOf "08") (by decide) (by decide)).mpr (by decide),
   by decide⟩

/-- C10: the wildcard short-circuit only fires when the entire normalized
field is the wildcard token; when `"todos"` merely appears as one element
of a delimiter-separated list, the field is evaluated token by token like
any other list, and in particular `"Todos,07"` does not match the
snapshot value `"2025"`. -/
theorem wildcard_inside_list_is_ordinary_token :
    (∀ (v : Cell) (now : Str),
      pyLower (normalize_cell v) ≠ strOf "todos" →
      strOf "todos" ∈ (split_values (normalize_cell v)).map pyLower →
      cell_matches v now
        = (split_values (normalize_cell v)).any (fun t => token_matches t now))
    ∧ cell_matches (Cell.cstr (strOf "Todos,07")) (strOf "2025") = false := by
  constructor
  · intro v now hw hmem
    have hsplit : split_values (normalize_cell v) ≠ [] := by
      intro h; rw [h] at hmem; simp at hmem
    have hne : (normalize_cell v).isEmpty = false := by
      cases h : normalize_cell v with
      | nil => rw [h] at hsplit; exact absurd (by decide) hsplit
      | cons a l => rfl
    have hsE : (split_values (normalize_cell v)).isEmpty = false := by
      cases h : split_values (normalize_cell v) with
      | nil => exact absurd h hsplit
      | cons a l => rfl
    simp [cell_matches, hne, hw, hsE]
  · decide

/-- Witness for C10: `"Todos,07"` is evaluated token-wise and does match
the snapshot value `"07"` via its second token. -/
theorem wildcard_inside_list_is_ordinary_token_witness :
    pyLower (normalize_cell (Cell.cstr (strOf "Todos,07"))) ≠ strOf "todos"
    ∧ strOf "todos"
        ∈ (split_values (normalize_cell (Cell.cstr (strOf "Todos,07")))).map pyLower
    ∧ cell_matches (Cell.cstr (strOf "Todos,07")) (strOf "07") = true := by
  refine ⟨by decide, by decide, ?_⟩
  rw [wildcard_inside_list_is_ordinary_token.1 (Cell.cstr (strOf "Todos,07"))
    (strOf "07") (by decide) (by decide)]
  decide

/-- Invariant of the queue operations: from any state, the items popped so
far followed by the remaining queue are the starting backlog plus the
pushes, in order. -/
theorem runQOps_invariant (ops : List QOp) (q out : List Item) :
    (ops.foldl applyQOp (q, out)).2 ++ (ops.foldl applyQOp (q, out)).1
      = out ++ q ++ pushedOf ops := by
  induction ops generalizing q out with
  | nil => simp [pushedOf]
  | cons op rest ih =>
    cases op with
    | push i =>
      have := ih (queuePut q i) out
      simp only [List.foldl_cons, applyQOp, pushedOf, List.filterMap_cons]
        at this ⊢
      rw [this]
      simp [queuePut, pushedOf]
    | pop =>
      cases q with
      | nil =>
        have := ih [] out
        simp only [List.foldl_cons, applyQOp, queueGet, pushedOf,
          List.filterMap_cons] at this ⊢
        rw [this]
      | cons x xs =>
        have := ih xs (out ++ [x])
        simp only [List.foldl_cons, applyQOp, queueGet, pushedOf,
          List.filterMap_cons] at this ⊢
        rw [this]
        simp [pushedOf]

/-- C4: for every interleaved sequence of push and pop operations starting
from the empty dispatch queue, the popped items followed by the remaining
queue are exactly the pushed items in FIFO order (none duplicated or
dropped), and `get` on the empty queue returns the empty-queue error
rather than any default value. -/
theorem queue_fifo_and_empty_error :
    (∀ ops : List QOp,
      (runQOps ops).2 ++ (runQOps ops).1 = pushedOf ops)
    ∧ queueGet ([] : QueueState) = Except.error () :=
  ⟨fun ops => by simpa [runQOps] using runQOps_invariant ops [] [], rfl⟩

/-- Within the same minute the reset is the identity. -/
theorem reset_same_minute (now : NowParts) (g : GuardState)
    (hlast : g.lastMinuteKey = some (minuteKey now)) :
    reset_if_new_minute now g = g := by
  unfold reset_if_new_minute
  simp [hlast]

/-- On a changed minute key the reset clears the seen set. -/
theorem reset_new_minute (now : NowParts) (g : GuardState)
    (hlast : g.lastMinuteKey ≠ some (minuteKey now)) :
    reset_if_new_minute now g = ⟨some (minuteKey now), []⟩ := by
  unfold reset_if_new_minute
  simp [hlast]

/-- The reset always leaves the call's minute key stored. -/
theorem reset_lastKey (now : NowParts) (g : GuardState) :
    (reset_if_new_minute now g).lastMinuteKey = some (minuteKey now) := by
  unfold reset_if_new_minute
  split
  · next h => exact h
  · rfl

/-- The updated guard always stores the call's minute key. -/
theorem guardAllow_lastKey (item : Item) (now : NowParts) (g : GuardState) :
    ((guardAllow item now g).2).lastMinuteKey = some (minuteKey now) := by
  unfold guardAllow
  split
  · exact reset_lastKey now g
  · exact reset_lastKey now g

/-- After any `allow` call the job key of the call is in the seen set. -/
theorem guardAllow_mem_after (item : Item) (now : NowParts) (g : GuardState) :
    jobKey item ∈ ((guardAllow item now g).2).seen := by
  unfold guardAllow
  split
  · next h => exact h
  · simp

/-- Within the same minute the seen set only grows. -/
theorem guardAllow_seen_mono (item : Item) (now : NowParts) (g : GuardState)
    (k : Str) (hlast : g.lastMinuteKey = some (minuteKey now))
    (hk : k ∈ g.seen) :
    k ∈ ((guardAllow item now g).2).seen := by
  unfold guardAllow
  rw [reset_same_minute now g hlast]
  split
  · exact hk
  · simp [hk]

/-- A seen job key with an unchanged minute key is rejected. -/
theorem guardAllow_rejects_seen (item : Item) (now : NowParts)
    (g : GuardState) (hlast : g.lastMinuteKey = some (minuteKey now))
    (hk : jobKey item ∈ g.seen) :
    (guardAllow item now g).1 = false := by
  unfold guardAllow
  rw [reset_same_minute now g hlast]
  simp [hk]

/-- A job key is accepted when the minute key changed or it is unseen. -/
theorem guardAllow_accepts (item : Item) (now : NowParts) (g : GuardState)
    (h : g.lastMinuteKey ≠ some (minuteKey now) ∨ jobKey item ∉ g.seen) :
    (guardAllow item now g).1 = true := by
  unfold guardAllow
  by_cases h2 : g.lastMinuteKey = some (minuteKey now)
  · rw [reset_same_minute now g h2]
    rcases h with h | h
    · exact absurd h2 h
    · simp [h]
  · rw [reset_new_minute now g h2]
    simp

/-- Running further calls of the same minute preserves the stored minute
key and every seen job key. -/
theorem runGuard_preserves (mid : List (Item × NowParts)) (mk : Str) :
    ∀ (g : GuardState) (k : Str), g.lastMinuteKey = some mk → k ∈ g.seen →
    (∀ c ∈ mid, minuteKey c.2 = mk) →
    (runGuard g mid).lastMinuteKey = some mk ∧ k ∈ (runGuard g mid).seen := by
  induction mid with
  | nil => intro g k h1 h2 _; exact ⟨h1, h2⟩
  | cons c rest ih =>
    intro g k h1 h2 hall
    have hc : minuteKey c.2 = mk := hall c (by simp)
    have h1' : ((guardAllow c.1 c.2 g).2).lastMinuteKey = some mk := by
      rw [guardAllow_lastKey, hc]
    have h2' : k ∈ ((guardAllow c.1 c.2 g).2).seen :=
      guardAllow_seen_mono c.1 c.2 g k (by rw [h1, hc]) h2
    have : runGuard g (c :: rest) = runGuard ((guardAllow c.1 c.2 g).2) rest := by
      simp [runGuard]
    rw [this]
    exact ih _ _ h1' h2' (fun d hd => hall d (by simp [hd]))

/-- Counterexample to C3 as stated: from a guard state whose current
minute already saw the job identity, two further same-minute `allow`
calls return `(false, false)`, not `(true, false)`. -/
theorem guard_seen_state_two_calls_false :
    (guardAllow item0 now0 guardSeen0).1 = false
    ∧ (guardAllow item0 now0 (guardAllow item0 now0 guardSeen0).2).1 = false := by
  decide

/-- C3 (amended): (1) from any state in which the minute key changed or
the job identity is unseen, two successive same-minute `allow` calls with
the same job identity return `(true, false)`; (2) once an `allow` call
returned true, no later call with the same job key inside the same minute
returns true, whatever same-minute calls happen in between; (3) a call
whose snapshot yields a minute key different from the stored one is
accepted again. -/
theorem guard_minute_dedup :
    (∀ (g : GuardState) (item : Item) (now now' : NowParts),
      (g.lastMinuteKey ≠ some (minuteKey now) ∨ jobKey item ∉ g.seen) →
      minuteKey now' = minuteKey now →
      (guardAllow item now g).1 = true
        ∧ (guardAllow item now' (guardAllow item now g).2).1 = false)
    ∧ (∀ (g : GuardState) (item item2 : Item) (now now2 : NowParts)
        (mid : List (Item × NowParts)),
      minuteKey now2 = minuteKey now →
      (∀ c ∈ mid, minuteKey c.2 = minuteKey now) →
      jobKey item2 = jobKey item →
      (guardAllow item now g).1 = true →
      (guardAllow item2 now2
        (runGuard (guardAllow item now g).2 mid)).1 = false)
    ∧ (∀ (g : GuardState) (item : Item) (now : NowParts),
      g.lastMinuteKey ≠ some (minuteKey now) →
      (guardAllow item now g).1 = true) := by
  refine ⟨?_, ?_, ?_⟩
  · intro g item now now' h hsame
    refine ⟨guardAllow_accepts item now g h, ?_⟩
    refine guardAllow_rejects_seen item now' _ ?_ ?_
    · rw [guardAllow_lastKey, hsame]
    · exact guardAllow_mem_after item now g
  · intro g item item2 now now2 mid hsame hall hkey _
    have h1 : ((guardAllow item now g).2).lastMinuteKey
        = some (minuteKey now) := guardAllow_lastKey item now g
    have h2 : jobKey item ∈ ((guardAllow item now g).2).seen :=
      guardAllow_mem_after item now g
    have hrun := runGuard_preserves mid (minuteKey now)
      ((guardAllow item now g).2) (jobKey item) h1 h2 hall
    refine guardAllow_rejects_seen item2 now2 _ ?_ ?_
    · rw [hrun.1, hsame]
    · rw [hkey]; exact hrun.2
  · intro g item now h
    exact guardAllow_accepts item now g (Or.inl h)

/-- Witness for C3 (amended): from the fresh guard, `item0` is accepted
then rejected in the minute of `now0`; it is rejected after an unrelated
same-minute call in between; and it is accepted again at `now1`, whose
minute key differs. -/
theorem guard_minute_dedup_witness :
    (guardInit.lastMinuteKey ≠ some (minuteKey now0)
      ∨ jobKey item0 ∉ guardInit.seen)
    ∧ ((guardAllow item0 now0 guardInit).1 = true
        ∧ (guardAllow item0 now0 (guardAllow item0 now0 guardInit).2).1 = false)
    ∧ (guardAllow item0 now0
        (runGuard (guardAllow item0 now0 guardInit).2 [(itemB, now0)])).1 = false
    ∧ (guardAllow item0 now1 (guardAllow item0 now0 guardInit).2).1 = true :=
  ⟨by decide,
   guard_minute_dedup.1 guardInit item0 now0 now0 (by decide) rfl,
   guard_minute_dedup.2.1 guardInit item0 item0 now0 now0 [(itemB, now0)]
     rfl (by decide) rfl (by decide),
   guard_minute_dedup.2.2 (guardAllow item0 now0 guardInit).2 item0 now1
     (by decide)⟩

/-- Every item on the queue after a tick was already queued or was among
the due items of that tick. -/
theorem tick_queue_members (now : NowParts) (fails : Item → Bool)
    (logToDb : Bool) :
    ∀ (due : List Item) (g : GuardState) (q : QueueState) (b : Item),
    b ∈ (tick_once_go now fails logToDb due g q).queue → b ∈ q ∨ b ∈ due := by
  intro due
  induction due with
  | nil => intro g q b hb; exact Or.inl hb
  | cons item rest ih =>
    intro g q b hb
    unfold tick_once_go at hb
    by_cases h1 : (guardAllow item now g).1 = false
    · rw [if_pos h1] at hb
      rcases ih _ _ _ hb with h | h
      · exact Or.inl h
      · exact Or.inr (by simp [h])
    · rw [if_neg h1] at hb
      by_cases h2 : (logToDb && fails item) = true
      · rw [if_pos h2] at hb
        exact Or.inl hb
      · rw [if_neg h2] at hb
        rcases ih _ _ _ hb with h | h
        · have h' : b ∈ q ∨ b = item := by simpa [queuePut] using h
          rcases h' with h'' | h''
          · exact Or.inl h''
          · exact Or.inr (by simp [h''])
        · exact Or.inr (by simp [h])

/-- The induction core for the aborted tick: with no failure among the
earlier due items and a failing item the guard accepts, the tick stops at
the failing item, keeping exactly the queue produced by the earlier
items. -/
theorem tick_go_abort (now : NowParts) (fails : Item → Bool) (item : Item)
    (post : List Item) (hitem : fails item = true) :
    ∀ (pre : List Item) (g : GuardState) (q : QueueState),
    (∀ j ∈ pre, fails j = false) →
    (guardAllow item now (tick_once_go now fails true pre g q).guard).1 = true →
    (tick_once_go now fails true (pre ++ item :: post) g q).queue
      = (tick_once_go now fails true pre g q).queue
    ∧ (tick_once_go now fails true (pre ++ item :: post) g q).aborted = true := by
  intro pre
  induction pre with
  | nil =>
    intro g q _ hallow
    simp only [List.nil_append]
    unfold tick_once_go at hallow ⊢
    rw [if_neg (by simp [hallow]), if_pos (by simp [hitem])]
    exact ⟨rfl, rfl⟩
  | cons p ps ih =>
    intro g q hpre hallow
    have hp : fails p = false := hpre p (by simp)
    simp only [List.cons_append]
    unfold tick_once_go at hallow ⊢
    by_cases h1 : (guardAllow p now g).1 = false
    · simp only [if_pos h1] at hallow ⊢
      exact ih _ _ (fun j hj => hpre j (by simp [hj])) hallow
    · have h2 : ¬ ((true && fails p) = true) := by simp [hp]
      simp only [if_neg h1, if_neg h2] at hallow ⊢
      exact ih _ _ (fun j hj => hpre j (by simp [hj])) hallow

/-- Counterexample to C2 as stated: with due jobs `[itemA, itemB]` and a
log sink that raises exactly on `itemA`, the tick enqueues nothing at
all — `itemB`, due in the same tick, is never pushed — and the tick is
aborted by the exception. -/
theorem tick_log_failure_drops_other_jobs :
    (tick_once now0 failsOnA true [itemA, itemB] guardInit []).queue = []
    ∧ (tick_once now0 failsOnA true [itemA, itemB] guardInit []).aborted
        = true := by
  decide

/-- C2 (amended): a failure raised while appending one due job's log entry
aborts the remainder of that tick: the due jobs before the failing one
that the guard accepted are already enqueued and stay, but the failing
job and every due job after it are not enqueued in that tick (everything
on the queue afterwards was queued before or is among the earlier due
jobs); the exception is caught at the controller's tick level, so later
ticks continue. -/
theorem tick_log_failure_aborts_rest (now : NowParts) (fails : Item → Bool)
    (pre post : List Item) (item : Item) (g : GuardState) (q : QueueState)
    (hpre : ∀ j ∈ pre, fails j = false) (hitem : fails item = true)
    (hallow : (guardAllow item now
      (tick_once_go now fails true pre g q).guard).1 = true) :
    (tick_once now fails true (pre ++ item :: post) g q).queue
      = (tick_once now fails true pre g q).queue
    ∧ (tick_once now fails true (pre ++ item :: post) g q).aborted = true
    ∧ ∀ b ∈ (tick_once now fails true (pre ++ item :: post) g q).queue,
        b ∈ q ∨ b ∈ pre := by
  have h := tick_go_abort now fails item post hitem pre g q hpre hallow
  refine ⟨h.1, h.2, ?_⟩
  intro b hb
  rw [tick_once] at hb
  rw [h.1] at hb
  exact tick_queue_members now fails true pre g q b hb

/-- Witness for C2 (amended): due list `[itemB, itemA, itemC]` with the
log sink failing on `itemA`: `itemB` is enqueued, the tick aborts, and
`itemC` is never enqueued. -/
theorem tick_log_failure_aborts_rest_witness :
    failsOnA itemB = false
    ∧ failsOnA itemA = true
    ∧ (tick_once now0 failsOnA true ([itemB] ++ itemA :: [itemC])
        guardInit []).queue = [itemB]
    ∧ (tick_once now0 failsOnA true ([itemB] ++ itemA :: [itemC])
        guardInit []).aborted = true := by
  have h := tick_log_failure_aborts_rest now0 failsOnA [itemB] [itemC] itemA
    guardInit [] (by decide) (by decide) (by decide)
  refine ⟨by decide, by decide, ?_, h.2.1⟩
  rw [h.1]
  decide

/-- C8: a controller tick at a local hour outside the operating window
[7, 18) — in particular at hour 6 or hour 18 — performs no matching and
no enqueue work: the dispatch queue, the duplicate-guard state and the
running item are left exactly as they were, whatever the schedule
content. -/
theorem outside_window_tick_is_noop (hour : Nat) (now : NowParts)
    (due : List Item) (fails : Item → Bool)
    (logToDb processRunning : Bool) (s : CtrlState)
    (h : ¬ (7 ≤ hour ∧ hour < 18)) :
    on_scheduler_tick hour now due fails logToDb processRunning s = s := by
  simp [on_scheduler_tick, h]

/-- Witness for C8: at hours 6 and 18 the concrete controller state is
untouched even with a due job pending. -/
theorem outside_window_tick_is_noop_witness :
    ¬ (7 ≤ 6 ∧ 6 < 18) ∧ ¬ (7 ≤ 18 ∧ 18 < 18)
    ∧ on_scheduler_tick 6 now0 [itemA] failsOnA true false ctrl0 = ctrl0
    ∧ on_scheduler_tick 18 now0 [itemA] failsOnA true false ctrl0 = ctrl0 :=
  ⟨by decide, by decide,
   outside_window_tick_is_noop 6 now0 [itemA] failsOnA true false ctrl0
     (by decide),
   outside_window_tick_is_noop 18 now0 [itemA] failsOnA true false ctrl0
     (by decide)⟩

/-- Counterexample to C1 as stated: the tool `"RoboT"` does not take the
reserved branch — the builder tokenizes the path and returns the single
token `["robot.exe"]`, not the four-token argv the claim names. -/
theorem robot_tool_is_not_reserved :
    build_subprocess_command envEmpty
      ⟨strOf "Proc", strOf "RoboT", strOf "robot.exe"⟩
      = Except.ok [strOf "robot.exe"]
    ∧ build_subprocess_command envEmpty
      ⟨strOf "Proc", strOf "RoboT", strOf "robot.exe"⟩
      ≠ Except.ok [strOf "robot.exe", strOf "execute",
          strOf "--process-name", strOf "Proc"] := by
  decide

/-- C1 (amended): the reserved tool identifier is `"uipath"`: for every
job item with a nonempty path whose tool case-insensitively equals
`"uipath"`, the builder returns exactly the four-token argv
[path, "execute", "--process-name", displayName], with no tokenization of
the path. -/
theorem uipath_tool_builds_four_token_argv (env : Env) (item : Item)
    (hpath : (pyStrip item.caminho).isEmpty = false)
    (htool : pyLower (pyStrip item.ferramenta) = strOf "uipath") :
    build_subprocess_command env item
      = Except.ok [pyStrip item.caminho, strOf "execute",
          strOf "--process-name", pyStrip item.processo] := by
  have htoolne : (pyStrip item.ferramenta).isEmpty = false := by
    cases h : pyStrip item.ferramenta with
    | nil => rw [h] at htool; exact absurd htool (by decide)
    | cons a l => rfl
  simp [build_subprocess_command, htoolne, hpath, htool, build_uipath_command]

/-- Witness for C1 (amended): the mixed-case tool `"UiPATH"` takes the
reserved branch at a concrete item. -/
theorem uipath_tool_builds_four_token_argv_witness :
    (pyStrip (strOf "robot.exe")).isEmpty = false
    ∧ pyLower (pyStrip (strOf "UiPATH")) = strOf "uipath"
    ∧ build_subprocess_command envEmpty
        ⟨strOf "Proc", strOf "UiPATH", strOf "robot.exe"⟩
      = Except.ok [strOf "robot.exe", strOf "execute",
          strOf "--process-name", strOf "Proc"] :=
  ⟨by decide, by decide,
   uipath_tool_builds_four_token_argv envEmpty
     ⟨strOf "Proc", strOf "UiPATH", strOf "robot.exe"⟩ (by decide) (by decide)⟩

/-- C9: for every non-reserved-tool item whose resolved executable is an
existing regular file with an extension outside the script and
directly-executable sets (.py, .pyw, .bat, .cmd, .ps1, .lnk, .exe, .com),
building fails with the unexecutable-target error naming the offending
path and extension. -/
theorem unexecutable_existing_file_is_rejected (env : Env) (item : Item)
    (entry : Str) (args : List Str)
    (htool : (pyStrip item.ferramenta).isEmpty = false)
    (hnotui : pyLower (pyStrip item.ferramenta) ≠ strOf "uipath")
    (hpath : (pyStrip item.caminho).isEmpty = false)
    (hsplit : split_command_windows env (pyStrip item.caminho) = entry :: args)
    (hext : pyLower (pyExt entry) ∉ [strOf ".py", strOf ".pyw", strOf ".bat",
      strOf ".cmd", strOf ".ps1", strOf ".lnk", strOf ".exe", strOf ".com"])
    (hexists : env.pathExists entry = true)
    (hfile : env.isFile entry = true) :
    build_subprocess_command env item
      = Except.error (BuildErr.unexecutable entry (pyLower (pyExt entry))) := by
  simp only [List.mem_cons, List.mem_singleton, not_or] at hext
  obtain ⟨e1, e2, e3, e4, e5, e6, e7, e8⟩ := hext
  simp [build_subprocess_command, htool, hpath, hnotui, hsplit,
    e1, e2, e3, e4, e5, e6, e7, e8, hexists, hfile]

/-- Witness for C9: `build("other", "C:\dir\readme.txt", "X")` in an
environment where that path is an existing regular file fails with the
unexecutable-target error naming the path and the extension `.txt`. -/
theorem unexecutable_existing_file_is_rejected_witness :
    pyLower (pyStrip (strOf "other")) ≠ strOf "uipath"
    ∧ split_command_windows envReadme (pyStrip (strOf "C:\\dir\\readme.txt"))
        = [strOf "C:\\dir\\readme.txt"]
    ∧ pyLower (pyExt (strOf "C:\\dir\\readme.txt")) = strOf ".txt"
    ∧ build_subprocess_command envReadme
        ⟨strOf "X", strOf "other", strOf "C:\\dir\\readme.txt"⟩
      = Except.error (BuildErr.unexecutable (strOf "C:\\dir\\readme.txt")
          (pyLower (pyExt (strOf "C:\\dir\\readme.txt")))) :=
  ⟨by decide, by decide, by decide,
   unexecutable_existing_file_is_rejected envReadme
     ⟨strOf "X", strOf "other", strOf "C:\\dir\\readme.txt"⟩
     (strOf "C:\\dir\\readme.txt") [] (by decide) (by decide) (by decide)
     (by decide) (by decide) (by decide) (by decide)⟩
